import Mathlib

/-!
Verification of the remote-delivery subsystem of YureiLog
(`src/smartLogger.js`).  File contents are modelled as lists of
characters, JSON records are abstract (a type parameter together with a
serialization and a parse function), and the asynchronous callbacks of
the source are modelled as explicit state-transition functions.
-/

namespace YureiLog

/-! ## JavaScript string helpers

`data.trim()` and `data.split('\n')` from `_flushPersistentQueue`,
modelled on lists of characters. -/

/-- Character class removed by JavaScript `String.prototype.trim`
(the members that matter for this development). -/
def isJsWs (c : Char) : Bool :=
  c = ' ' || c = '\t' || c = '\n' || c = '\r' || c = '\x0b' || c = '\x0c' ||
    c = ' ' || c = '﻿'

/-- JavaScript `s.trim()`: strip `isJsWs` characters from both ends. -/
def jsTrim (s : List Char) : List Char :=
  ((s.dropWhile isJsWs).reverse.dropWhile isJsWs).reverse

/-- JavaScript `s.split('\n')` on a list of characters.  Mirrors the JS
semantics: the empty string splits to `[""]`, a trailing separator
produces a trailing empty field. -/
def splitNl : List Char → List (List Char)
  | [] => [[]]
  | c :: rest =>
    if c = '\n' then [] :: splitNl rest
    else
      match splitNl rest with
      | [] => [[c]]
      | l :: ls => (c :: l) :: ls

/-- JavaScript `lines.join('\n')` on lists of characters. -/
def joinNl : List (List Char) → List Char
  | [] => []
  | [l] => l
  | l :: l₂ :: ls => l ++ '\n' :: joinNl (l₂ :: ls)

/-- First character of a list, with a non-whitespace default. -/
def headChar (l : List Char) : Char := l.head?.getD 'x'

/-- Last character of a list, with a non-whitespace default. -/
def lastChar (l : List Char) : Char := l.getLast?.getD 'x'

/-! ## Backoff Calculator

`calcBackoff(attempt, base = 500, cap = 30000)` from `smartLogger.js`:
`Math.min(cap, Math.floor(base * Math.pow(2, attempt)) + jitter)` where
`jitter = Math.random() * 100`.  The jitter is passed explicitly as a
rational in `[0, 100)`. -/

/-- The backoff computation of `calcBackoff`. -/
def calcBackoff (attempt : ℕ) (jitter base cap : ℚ) : ℚ :=
  min cap ((⌊base * 2 ^ attempt⌋ : ℚ) + jitter)

/-! ## Logger model

The remote-delivery state of one `SmartLogger` instance, and the
operations of `_enqueueRemote`, `_flushRemote` (its synchronous part and
its error callback), `_flushPersistentQueue`, `close` and `flushRemote`.
`Rec` is the abstract type of event records. -/

/-- Resolved remote configuration of a logger instance.  `hasUrl` is
`remote && remote.url` being truthy; `urlValid` is whether
`new URL(remote.url)` succeeds; `batchSize` and `maxBuffer` are the
resolved values (`remote.batchSize || 10`, `remote.maxBuffer || 1000`);
`hasQueuePath` is `remoteQueuePath` being non-null. -/
structure Config where
  hasUrl : Bool
  urlValid : Bool
  remoteGzip : Bool
  batchSize : ℕ
  maxBuffer : ℕ
  remoteReliable : Bool
  hasQueuePath : Bool
deriving DecidableEq

/-- Mutable remote-delivery state of a logger: the in-memory batch
buffer (`this.remoteBuffer`), the durability-queue file content
(`none` when the file is absent), the retry fail count
(`this._remoteFailCount`) and whether the recurring timer is armed
(`this.remoteTimer != null`). -/
structure LoggerState (Rec : Type) where
  remoteBuffer : List Rec
  queueFile : Option (List Char)
  remoteFailCount : ℕ
  timerArmed : Bool
deriving DecidableEq

/-- One outbound HTTP request as issued by `_flushRemote`: the drained
batch it carries and whether the `Content-Encoding: gzip` header was
set. -/
structure Request (Rec : Type) where
  batch : List Rec
  gzipped : Bool
deriving DecidableEq

/-- Result of the synchronous part of a flush: the state after it, the
request issued (if any), and whether an exception propagated out. -/
structure FlushOutcome (Rec : Type) where
  state : LoggerState Rec
  request : Option (Request Rec)
  threw : Bool
deriving DecidableEq

variable {Rec : Type}

/-- Synchronous part of `_flushRemote`: bail out if remote is not
configured; splice the whole buffer; bail out if it was empty; parse
the URL, returning silently (records already drained) if malformed;
gzip the body when `remoteGzip` is set — `zlib.gzipSync` has no
try/catch around it, so a compression failure (`gzipOk = false`)
propagates as an exception; otherwise issue the request. -/
def flushRemoteSync (cfg : Config) (gzipOk : Bool) (st : LoggerState Rec) :
    FlushOutcome Rec :=
  if cfg.hasUrl = false then ⟨st, none, false⟩
  else if st.remoteBuffer.isEmpty then ⟨st, none, false⟩
  else if cfg.urlValid = false then
    ⟨{ st with remoteBuffer := [] }, none, false⟩
  else if cfg.remoteGzip = true ∧ gzipOk = false then
    ⟨{ st with remoteBuffer := [] }, none, true⟩
  else
    ⟨{ st with remoteBuffer := [] }, some ⟨st.remoteBuffer, cfg.remoteGzip⟩, false⟩

/-- `_enqueueRemote(item)`: push onto the buffer and, when the length
reaches `batchSize`, call `_flushRemote` immediately — inside a
`try { } catch { }` that swallows any exception.  No timer state is
consulted. -/
def enqueueRemote (cfg : Config) (gzipOk : Bool) (item : Rec)
    (st : LoggerState Rec) : FlushOutcome Rec :=
  let st1 : LoggerState Rec := { st with remoteBuffer := st.remoteBuffer ++ [item] }
  if cfg.batchSize ≤ st1.remoteBuffer.length then
    let r := flushRemoteSync cfg gzipOk st1
    ⟨r.state, r.request, false⟩
  else ⟨st1, none, false⟩

/-- The `req.on('error', ...)` callback of `_flushRemote`, applied to
the state current when the failure is observed (which may contain
records enqueued after the drain).  In durable mode the drained batch
is appended to the queue file, one JSON line per record with a trailing
newline (`appendOk = false` models a disk error, swallowed); otherwise
the batch is unshifted onto the buffer, which is then capped at
`maxBuffer`.  In both cases the fail count is incremented and the
recurring timer is torn down pending backoff. -/
def onDeliveryError (cfg : Config) (stringify : Rec → List Char)
    (appendOk : Bool) (batch : List Rec) (st : LoggerState Rec) :
    LoggerState Rec :=
  let st1 : LoggerState Rec :=
    if cfg.remoteReliable = true ∧ cfg.hasQueuePath = true then
      if appendOk then
        let newFile := st.queueFile.getD [] ++ (joinNl (batch.map stringify) ++ ['\n'])
        { st with queueFile := some newFile }
      else st
    else
      let buf := batch ++ st.remoteBuffer
      { st with remoteBuffer :=
          if cfg.maxBuffer < buf.length then buf.take cfg.maxBuffer else buf }
  { st1 with remoteFailCount := st1.remoteFailCount + 1, timerArmed := false }

/-- JavaScript `lines.map(l => JSON.parse(l))`: parse each line in
order, the first failure aborting the whole map (the thrown exception). -/
def parseAll (parse : List Char → Option Rec) : List (List Char) → Option (List Rec)
  | [] => some []
  | l :: ls =>
    match parse l with
    | none => none
    | some r =>
      match parseAll parse ls with
      | none => none
      | some rs => some (r :: rs)

/-- The body of `_flushPersistentQueue` up to (and including) the
rewrite of the queue file, as one state transition.  Returns the new
state, whether control reached the `this._flushRemote()` call, and
whether an exception was thrown (to be swallowed by the enclosing
`catch`).  `writeOk = false` models `fs.writeFileSync` failing. -/
def drainStep (cfg : Config) (parse : List Char → Option Rec) (writeOk : Bool)
    (st : LoggerState Rec) : LoggerState Rec × Bool × Bool :=
  if ¬ (cfg.remoteReliable = true ∧ cfg.hasQueuePath = true) then (st, false, false)
  else
    match st.queueFile with
    | none => (st, false, false)
    | some content =>
      if content.isEmpty then (st, false, false)
      else
        match parseAll parse ((splitNl (jsTrim content)).take
            (min (splitNl (jsTrim content)).length cfg.batchSize)) with
        | none => (st, false, true)
        | some batch =>
          let st1 : LoggerState Rec :=
            { st with remoteBuffer := batch ++ st.remoteBuffer }
          if writeOk = false then (st1, false, true)
          else
            let remaining := (splitNl (jsTrim content)).drop
              (min (splitNl (jsTrim content)).length cfg.batchSize)
            let newFile := joinNl remaining ++ if remaining.isEmpty then [] else ['\n']
            let st2 : LoggerState Rec := { st1 with queueFile := some newFile }
            (st2, true, false)

/-- `_flushPersistentQueue()`: the drain step followed, when it
completed, by the immediate `_flushRemote()`; the whole body sits in a
`try { } catch { }` that swallows exceptions, so mutations made before
a throw persist. -/
def flushPersistentQueue (cfg : Config) (parse : List Char → Option Rec)
    (gzipOk writeOk : Bool) (st : LoggerState Rec) : LoggerState Rec :=
  let r := drainStep cfg parse writeOk st
  if r.2.1 then (flushRemoteSync cfg gzipOk r.1).state else r.1

/-- The remote-delivery state set up by the constructor: empty buffer,
fail count zero, timer armed iff a remote URL is configured, and in
durable mode the queue file is created empty when absent. -/
def initState (Rec : Type) (cfg : Config) (disk : Option (List Char)) :
    LoggerState Rec :=
  { remoteBuffer := []
    queueFile :=
      if cfg.remoteReliable = true ∧ cfg.hasQueuePath = true then
        some (disk.getD [])
      else disk
    remoteFailCount := 0
    timerArmed := cfg.hasUrl }

/-- The events that drive the remote-delivery state: an enqueue, a
timer tick, the explicit `flushRemote()`, the two delivery outcomes, a
persistent-queue drain, `close()`, and the elapse of a backoff delay
(the `setTimeout` callback re-arming the timer). -/
inductive Op (Rec : Type) where
  | enqueue (item : Rec) (gzipOk : Bool)
  | timerFire (gzipOk : Bool)
  | explicitFlush (gzipOk : Bool)
  | deliverySuccess
  | deliveryError (batch : List Rec) (appendOk : Bool)
  | drainQueue (gzipOk writeOk : Bool)
  | closeLogger (gzipOk : Bool)
  | backoffElapsed

/-- The state transition of each event, read off the source: the timer
callback flushes only a non-empty buffer; a successful delivery runs a
response handler that ignores everything; `close()` and `flushRemote()`
tear the timer down and flush a non-empty buffer. -/
def step (cfg : Config) (stringify : Rec → List Char)
    (parse : List Char → Option Rec) : Op Rec → LoggerState Rec → LoggerState Rec
  | .enqueue item gzipOk => fun st => (enqueueRemote cfg gzipOk item st).state
  | .timerFire gzipOk => fun st =>
      if st.timerArmed = true ∧ st.remoteBuffer.isEmpty = false then
        (flushRemoteSync cfg gzipOk st).state
      else st
  | .explicitFlush gzipOk => fun st =>
      let st1 : LoggerState Rec := { st with timerArmed := false }
      if st1.remoteBuffer.isEmpty then st1 else (flushRemoteSync cfg gzipOk st1).state
  | .deliverySuccess => fun st => st
  | .deliveryError batch appendOk => onDeliveryError cfg stringify appendOk batch
  | .drainQueue gzipOk writeOk => flushPersistentQueue cfg parse gzipOk writeOk
  | .closeLogger gzipOk => fun st =>
      let st1 : LoggerState Rec := { st with timerArmed := false }
      if st1.remoteBuffer.isEmpty then st1 else (flushRemoteSync cfg gzipOk st1).state
  | .backoffElapsed => fun st => { st with timerArmed := true }

/-! ## Well-formed queue files -/

/-- A well-formed queue-file line: non-empty, newline-free, and not
starting or ending in trim-whitespace (every `JSON.stringify` output
satisfies this). -/
def WfLine (l : List Char) : Prop :=
  l ≠ [] ∧ '\n' ∉ l ∧ isJsWs (headChar l) = false ∧ isJsWs (lastChar l) = false

instance (l : List Char) : Decidable (WfLine l) := by
  unfold WfLine; infer_instance

/-- A well-formed queue file body: at least one line, all lines
well-formed.  The file content is then `joinNl lines ++ ['\n']`. -/
def WfLines (lines : List (List Char)) : Prop :=
  lines ≠ [] ∧ ∀ l ∈ lines, WfLine l

instance (lines : List (List Char)) : Decidable (WfLines lines) := by
  unfold WfLines; infer_instance

/-! ## Lemmas on the string helpers -/

theorem splitNl_no_nl (l : List Char) (h : '\n' ∉ l) : splitNl l = [l] := by
  induction l with
  | nil => rfl
  | cons c rest ih =>
    have hc : ¬ c = '\n' := fun hc => h (hc ▸ List.mem_cons_self c rest)
    have hr : '\n' ∉ rest := fun hm => h (List.mem_cons_of_mem c hm)
    simp [splitNl, hc, ih hr]

theorem splitNl_append (l rest : List Char) (h : '\n' ∉ l) :
    splitNl (l ++ '\n' :: rest) = l :: splitNl rest := by
  induction l with
  | nil => simp [splitNl]
  | cons c t ih =>
    have hc : ¬ c = '\n' := fun hc => h (hc ▸ List.mem_cons_self c t)
    have ht : '\n' ∉ t := fun hm => h (List.mem_cons_of_mem c hm)
    have ih' : splitNl (t.append ('\n' :: rest)) = t :: splitNl rest := ih ht
    simp only [List.cons_append, splitNl, if_neg hc]
    rw [ih']

theorem splitNl_joinNl (lines : List (List Char)) (h1 : lines ≠ [])
    (h2 : ∀ l ∈ lines, '\n' ∉ l) : splitNl (joinNl lines) = lines := by
  induction lines with
  | nil => exact absurd rfl h1
  | cons l ls ih =>
    cases ls with
    | nil => simpa [joinNl] using splitNl_no_nl l (h2 l (List.mem_cons_self l []))
    | cons l₂ t =>
      have hl : '\n' ∉ l := h2 l (List.mem_cons_self l _)
      have h2' : ∀ x ∈ l₂ :: t, '\n' ∉ x := fun x hx => h2 x (List.mem_cons_of_mem l hx)
      simp only [joinNl, splitNl_append l _ hl, ih (by simp) h2']

theorem joinNl_cons_cons (l l₂ : List Char) (t : List (List Char)) :
    joinNl (l :: l₂ :: t) = l ++ '\n' :: joinNl (l₂ :: t) := rfl

theorem joinNl_ne_nil (lines : List (List Char)) (h1 : lines ≠ [])
    (h2 : ∀ l ∈ lines, l ≠ []) : joinNl lines ≠ [] := by
  cases lines with
  | nil => exact absurd rfl h1
  | cons l ls =>
    cases ls with
    | nil => exact h2 l (List.mem_cons_self l [])
    | cons l₂ t =>
      rw [joinNl_cons_cons]
      rcases h2 l (List.mem_cons_self l _) with _
      intro hnil
      rcases List.append_eq_nil.mp hnil with ⟨hl, _⟩
      exact h2 l (List.mem_cons_self l _) hl

theorem headChar_joinNl (lines : List (List Char)) (h1 : lines ≠ [])
    (h2 : ∀ l ∈ lines, l ≠ []) :
    ∀ rest : List Char, headChar (joinNl lines ++ rest) = headChar (lines.headI) := by
  intro rest
  cases lines with
  | nil => exact absurd rfl h1
  | cons l ls =>
    have hl : l ≠ [] := h2 l (List.mem_cons_self l ls)
    obtain ⟨c, t, rfl⟩ := List.exists_cons_of_ne_nil hl
    cases ls with
    | nil => simp [joinNl, headChar]
    | cons l₂ t₂ => simp [joinNl_cons_cons, headChar]

theorem lastChar_joinNl (lines : List (List Char)) (h1 : lines ≠ [])
    (h2 : ∀ l ∈ lines, l ≠ []) :
    lastChar (joinNl lines) = lastChar (lines.getLast h1) := by
  induction lines with
  | nil => exact absurd rfl h1
  | cons l ls ih =>
    cases ls with
    | nil => simp [joinNl]
    | cons l₂ t =>
      have h1' : l₂ :: t ≠ [] := by simp
      have h2' : ∀ x ∈ l₂ :: t, x ≠ [] := fun x hx => h2 x (List.mem_cons_of_mem l hx)
      have hne := joinNl_ne_nil (l₂ :: t) h1' h2'
      rw [joinNl_cons_cons]
      have : lastChar (l ++ '\n' :: joinNl (l₂ :: t)) = lastChar (joinNl (l₂ :: t)) := by
        obtain ⟨a, as, hJ⟩ := List.exists_cons_of_ne_nil hne
        unfold lastChar
        rw [List.getLast?_append_cons, hJ, List.getLast?_cons_cons]
      rw [this, ih h1' h2', List.getLast_cons_cons]

theorem dropWhile_of_headChar (p : Char → Bool) (l : List Char) (h1 : l ≠ [])
    (h2 : p (headChar l) = false) : l.dropWhile p = l := by
  obtain ⟨c, t, rfl⟩ := List.exists_cons_of_ne_nil h1
  simp only [headChar, List.head?_cons, Option.getD_some] at h2
  simp [List.dropWhile_cons, h2]

theorem jsTrim_wellformed (lines : List (List Char)) (h : WfLines lines) :
    jsTrim (joinNl lines ++ ['\n']) = joinNl lines := by
  obtain ⟨h1, h2⟩ := h
  have hne : ∀ l ∈ lines, l ≠ [] := fun l hl => (h2 l hl).1
  have hJ : joinNl lines ≠ [] := joinNl_ne_nil lines h1 hne
  have lead : (joinNl lines ++ ['\n']).dropWhile isJsWs = joinNl lines ++ ['\n'] := by
    apply dropWhile_of_headChar
    · intro hnil
      exact hJ (List.append_eq_nil.mp hnil).1
    · rw [headChar_joinNl lines h1 hne]
      have hmem : lines.headI ∈ lines := by
        cases lines with
        | nil => exact absurd rfl h1
        | cons l ls => exact List.mem_cons_self l ls
      obtain ⟨c, t, hct⟩ := List.exists_cons_of_ne_nil (hne _ hmem)
      have := (h2 _ hmem).2.2.1
      simpa [hct] using this
  have rev : (joinNl lines ++ ['\n']).reverse = '\n' :: (joinNl lines).reverse := by
    simp
  have tail1 : ('\n' :: (joinNl lines).reverse).dropWhile isJsWs =
      ((joinNl lines).reverse).dropWhile isJsWs := by
    simp [List.dropWhile_cons, isJsWs]
  have tail2 : ((joinNl lines).reverse).dropWhile isJsWs = (joinNl lines).reverse := by
    apply dropWhile_of_headChar
    · simpa using hJ
    · have hhl : headChar ((joinNl lines).reverse) = lastChar (joinNl lines) := by
        unfold headChar lastChar
        rw [List.head?_reverse]
      rw [hhl, lastChar_joinNl lines h1 hne]
      have hmem : lines.getLast h1 ∈ lines := List.getLast_mem h1
      exact (h2 _ hmem).2.2.2
  unfold jsTrim
  rw [lead, rev, tail1, tail2, List.reverse_reverse]

theorem joinNl_take_drop (k : ℕ) (lines : List (List Char)) (h : k < lines.length) :
    joinNl lines ++ ['\n'] =
      (((lines.take k).map (fun l => l ++ ['\n'])).flatten)
        ++ (joinNl (lines.drop k) ++ ['\n']) := by
  induction k generalizing lines with
  | zero => simp
  | succ k ih =>
    cases lines with
    | nil => simp at h
    | cons l ls =>
      have hlen : k < ls.length := by simpa using h
      have hls : ls ≠ [] := by
        intro hnil
        rw [hnil] at hlen
        simp at hlen
      obtain ⟨l₂, t, rfl⟩ := List.exists_cons_of_ne_nil hls
      rw [joinNl_cons_cons]
      have := ih (l₂ :: t) hlen
      simp only [List.take_succ_cons, List.map_cons, List.flatten_cons, List.drop_succ_cons,
        List.cons_append, List.append_assoc]
      rw [← this]
      simp

theorem joinNl_flatten (xs : List (List Char)) (h : xs ≠ []) :
    joinNl xs ++ ['\n'] = (xs.map (fun l => l ++ ['\n'])).flatten := by
  induction xs with
  | nil => exact absurd rfl h
  | cons l ls ih =>
    cases ls with
    | nil => simp [joinNl]
    | cons l₂ t =>
      rw [joinNl_cons_cons]
      have := ih (by simp)
      simp only [List.map_cons, List.flatten_cons] at this ⊢
      rw [← this]
      simp

theorem parseAll_eq_none_of_mem (parse : List Char → Option Rec)
    (ls : List (List Char)) (l : List Char) (hmem : l ∈ ls)
    (hbad : parse l = none) : parseAll parse ls = none := by
  induction ls with
  | nil => cases hmem
  | cons x t ih =>
    unfold parseAll
    cases hx : parse x with
    | none => rfl
    | some r =>
      rcases List.mem_cons.mp hmem with rfl | hmem'
      · rw [hx] at hbad
        cases hbad
      · rw [ih hmem']

theorem flushRemoteSync_failCount (cfg : Config) (gzipOk : Bool)
    (st : LoggerState Rec) :
    (flushRemoteSync cfg gzipOk st).state.remoteFailCount = st.remoteFailCount := by
  unfold flushRemoteSync
  split_ifs <;> rfl

theorem drainStep_failCount (cfg : Config) (parse : List Char → Option Rec)
    (writeOk : Bool) (st : LoggerState Rec) :
    ((drainStep cfg parse writeOk st).1).remoteFailCount = st.remoteFailCount := by
  unfold drainStep
  repeat' first | rfl | split

theorem flushPersistentQueue_failCount (cfg : Config)
    (parse : List Char → Option Rec) (gzipOk writeOk : Bool)
    (st : LoggerState Rec) :
    (flushPersistentQueue cfg parse gzipOk writeOk st).remoteFailCount =
      st.remoteFailCount := by
  unfold flushPersistentQueue
  dsimp only
  split
  · rw [flushRemoteSync_failCount, drainStep_failCount]
  · rw [drainStep_failCount]

theorem onDeliveryError_failCount (cfg : Config) (stringify : Rec → List Char)
    (appendOk : Bool) (batch : List Rec) (st : LoggerState Rec) :
    (onDeliveryError cfg stringify appendOk batch st).remoteFailCount =
      st.remoteFailCount + 1 := by
  unfold onDeliveryError
  split_ifs <;> rfl

theorem enqueueRemote_failCount (cfg : Config) (gzipOk : Bool) (item : Rec)
    (st : LoggerState Rec) :
    (enqueueRemote cfg gzipOk item st).state.remoteFailCount =
      st.remoteFailCount := by
  unfold enqueueRemote
  dsimp only
  split
  · rw [flushRemoteSync_failCount]
  · rfl

/-! ## Concrete instances used by witnesses -/

/-- A concrete record parser on three one-character lines, standing in
for `JSON.parse` in witnesses. -/
def demoParse : List Char → Option ℕ
  | ['1'] => some 1
  | ['2'] => some 2
  | ['3'] => some 3
  | _ => none

/-- A concrete record serializer, standing in for `JSON.stringify` in
witnesses. -/
def demoStringify (n : ℕ) : List Char :=
  [Char.ofNat (48 + n % 10)]

/-- Three one-character queue-file lines used by witnesses. -/
def demoLines : List (List Char) := [['1'], ['2'], ['3']]

/-! ## Claims -/

/-- C4, counterexample: with `attempt = 6` and jitter `0 ∈ [0, 100)`,
`calcBackoff` returns the cap `30000`, which is strictly below
`floor(500 * 2^6) = 32000`, refuting the claimed lower bound
`backoff(attempt) ≥ floor(base * 2^attempt)`. -/
theorem C4_counterexample :
    (0 : ℚ) ≤ 0 ∧ (0 : ℚ) < 100 ∧
      calcBackoff 6 0 500 30000 < ((⌊(500 : ℚ) * 2 ^ 6⌋ : ℤ) : ℚ) := by
  refine ⟨le_refl 0, by norm_num, ?_⟩
  unfold calcBackoff
  norm_num

/-- C4, amended: for every `attempt ≥ 0` and jitter in `[0, 100)`,
`calcBackoff attempt jitter 500 30000` equals
`min(cap, floor(base * 2^attempt) + jitter)`, is at most the cap
`30000`, and is at least `min(cap, floor(base * 2^attempt))` (the
unamended lower bound `floor(base * 2^attempt)` fails once the cap
binds, see the counterexample). -/
theorem C4_backoff_bounds (attempt : ℕ) (jitter : ℚ)
    (h0 : 0 ≤ jitter) (_h100 : jitter < 100) :
    calcBackoff attempt jitter 500 30000 =
        min 30000 ((⌊(500 : ℚ) * 2 ^ attempt⌋ : ℚ) + jitter) ∧
      calcBackoff attempt jitter 500 30000 ≤ 30000 ∧
      min 30000 ((⌊(500 : ℚ) * 2 ^ attempt⌋ : ℚ)) ≤
        calcBackoff attempt jitter 500 30000 := by
  refine ⟨rfl, min_le_left _ _, ?_⟩
  unfold calcBackoff
  exact min_le_min le_rfl (by linarith)

/-- C4, witness: the amended bounds at `attempt = 2`, `jitter = 7`. -/
theorem C4_backoff_bounds_witness :
    (0 : ℚ) ≤ 7 ∧ (7 : ℚ) < 100 ∧
      (calcBackoff 2 7 500 30000 =
          min 30000 ((⌊(500 : ℚ) * 2 ^ 2⌋ : ℚ) + 7) ∧
        calcBackoff 2 7 500 30000 ≤ 30000 ∧
        min 30000 ((⌊(500 : ℚ) * 2 ^ 2⌋ : ℚ)) ≤ calcBackoff 2 7 500 30000) :=
  ⟨by norm_num, by norm_num, C4_backoff_bounds 2 7 (by norm_num) (by norm_num)⟩

/-- C1, counterexample: with a syntactically malformed remote URL
(`urlValid = false`) and the non-empty buffer `[0]`, the flush indeed
does not throw, but the Batch Buffer is NOT left as it was: the splice
happens before the URL parse, so the drained record is silently
discarded and the buffer ends up empty, refuting the claimed no-op. -/
theorem C1_counterexample :
    (flushRemoteSync ⟨true, false, false, 10, 1000, false, false⟩
        true (⟨[0], some [], 0, true⟩ : LoggerState ℕ)).threw = false ∧
      (flushRemoteSync ⟨true, false, false, 10, 1000, false, false⟩
          true (⟨[0], some [], 0, true⟩ : LoggerState ℕ)).state.remoteBuffer ≠ [0] := by
  decide

/-- C1, amended: with a malformed remote URL and a non-empty Batch
Buffer, a flush never throws, issues no request, and leaves the
Durability Queue file and the fail count untouched — but it empties the
Batch Buffer, discarding the drained records, because `_flushRemote`
splices the buffer before parsing the URL. -/
theorem C1_flush_malformed_url {Rec : Type} (cfg : Config) (gzipOk : Bool)
    (st : LoggerState Rec) (hurl : cfg.hasUrl = true)
    (hbad : cfg.urlValid = false) (hne : st.remoteBuffer ≠ []) :
    flushRemoteSync cfg gzipOk st =
      ⟨⟨[], st.queueFile, st.remoteFailCount, st.timerArmed⟩, none, false⟩ := by
  have hemp : st.remoteBuffer.isEmpty = false := by
    simpa [List.isEmpty_iff] using hne
  simp [flushRemoteSync, hurl, hbad, hemp]

/-- C1, witness: the amended statement at a concrete malformed-URL
configuration and the one-record buffer `[0]`. -/
theorem C1_flush_malformed_url_witness :
    (⟨true, false, false, 10, 1000, false, false⟩ : Config).hasUrl = true ∧
      (⟨true, false, false, 10, 1000, false, false⟩ : Config).urlValid = false ∧
      (⟨[0], some [], 0, true⟩ : LoggerState ℕ).remoteBuffer ≠ [] ∧
      flushRemoteSync ⟨true, false, false, 10, 1000, false, false⟩
          true (⟨[0], some [], 0, true⟩ : LoggerState ℕ) =
        ⟨⟨[], some [], 0, true⟩, none, false⟩ :=
  ⟨rfl, rfl, by decide,
    C1_flush_malformed_url _ _ _ rfl rfl (by decide)⟩

/-- C2: on delivery failure with durable mode off, the failure callback
unshifts the drained batch ahead of whatever is in the buffer when the
failure is observed (records enqueued meanwhile), and the result is
exactly the first `maxBuffer` entries of that combined oldest-first
sequence; when the combined length is within the cap nothing is
dropped, and the Durability Queue file is untouched. -/
theorem C2_reinsert_front {Rec : Type} (cfg : Config)
    (stringify : Rec → List Char) (appendOk : Bool) (batch : List Rec)
    (st : LoggerState Rec)
    (hoff : cfg.remoteReliable = false ∨ cfg.hasQueuePath = false) :
    (onDeliveryError cfg stringify appendOk batch st).remoteBuffer =
        (batch ++ st.remoteBuffer).take cfg.maxBuffer ∧
      ((batch ++ st.remoteBuffer).length ≤ cfg.maxBuffer →
        (onDeliveryError cfg stringify appendOk batch st).remoteBuffer =
          batch ++ st.remoteBuffer) ∧
      (onDeliveryError cfg stringify appendOk batch st).queueFile = st.queueFile := by
  have hcond : ¬ (cfg.remoteReliable = true ∧ cfg.hasQueuePath = true) := by
    rcases hoff with h | h <;> simp [h]
  have key : (onDeliveryError cfg stringify appendOk batch st).remoteBuffer =
      (batch ++ st.remoteBuffer).take cfg.maxBuffer := by
    unfold onDeliveryError
    rw [if_neg hcond]
    by_cases hlen : cfg.maxBuffer < (batch ++ st.remoteBuffer).length
    · simp [hlen]
    · push_neg at hlen
      simp [Nat.not_lt.mpr hlen, List.take_of_length_le hlen]
  refine ⟨key, fun hlen => ?_, ?_⟩
  · rw [key]
    exact List.take_of_length_le hlen
  · unfold onDeliveryError
    rw [if_neg hcond]

/-- C2, witness: a failed batch `[1, 2]` rejoins buffer `[3]` in front,
and with `maxBuffer = 2` the combined `[1, 2, 3]` is cut to `[1, 2]`. -/
theorem C2_reinsert_front_witness :
    ((⟨true, true, false, 10, 2, false, false⟩ : Config).remoteReliable = false ∨
        (⟨true, true, false, 10, 2, false, false⟩ : Config).hasQueuePath = false) ∧
      (onDeliveryError ⟨true, true, false, 10, 2, false, false⟩
            demoStringify true [1, 2] (⟨[3], none, 0, true⟩ : LoggerState ℕ)).remoteBuffer =
        ([1, 2] ++ [3]).take 2 :=
  ⟨Or.inl rfl,
    (C2_reinsert_front ⟨true, true, false, 10, 2, false, false⟩
      demoStringify true [1, 2] ⟨[3], none, 0, true⟩ (Or.inl rfl)).1⟩

/-- C3: on delivery failure with durable mode on and a successful disk
append, the queue file gains exactly the drained records, one
serialized record per line in drain order, each line
newline-terminated; the Batch Buffer is untouched by the failure
handler; and the fail count goes up by exactly one. -/
theorem C3_durable_failure_append {Rec : Type} (cfg : Config)
    (stringify : Rec → List Char) (batch : List Rec) (st : LoggerState Rec)
    (hrel : cfg.remoteReliable = true) (hqp : cfg.hasQueuePath = true)
    (hne : batch ≠ []) :
    (onDeliveryError cfg stringify true batch st).queueFile =
        some (st.queueFile.getD [] ++
          (batch.map (fun r => stringify r ++ ['\n'])).flatten) ∧
      (onDeliveryError cfg stringify true batch st).remoteBuffer =
        st.remoteBuffer ∧
      (onDeliveryError cfg stringify true batch st).remoteFailCount =
        st.remoteFailCount + 1 := by
  have hmap : batch.map stringify ≠ [] := by
    simpa using hne
  have hflat := joinNl_flatten (batch.map stringify) hmap
  have hmm : ((batch.map stringify).map (fun l => l ++ ['\n'])).flatten =
      (batch.map (fun r => stringify r ++ ['\n'])).flatten := by
    rw [List.map_map]
    rfl
  unfold onDeliveryError
  rw [if_pos ⟨hrel, hqp⟩]
  refine ⟨?_, rfl, rfl⟩
  rw [hflat, hmm]
  simp

/-- C3, witness: failing a delivery of `[1, 2]` in durable mode appends
the two serialized lines to the existing file content and bumps the
fail count from `0` to `1`, keeping the buffer `[9]` intact. -/
theorem C3_durable_failure_append_witness :
    (⟨true, true, false, 10, 1000, true, true⟩ : Config).remoteReliable = true ∧
      ([1, 2] : List ℕ) ≠ [] ∧
      ((onDeliveryError ⟨true, true, false, 10, 1000, true, true⟩
              demoStringify true [1, 2] ⟨[9], some ['0', '\n'], 0, true⟩).queueFile =
          some ((some ['0', '\n'] : Option (List Char)).getD [] ++
            (([1, 2] : List ℕ).map (fun r => demoStringify r ++ ['\n'])).flatten) ∧
        (onDeliveryError ⟨true, true, false, 10, 1000, true, true⟩
              demoStringify true [1, 2] ⟨[9], some ['0', '\n'], 0, true⟩).remoteBuffer =
          [9] ∧
        (onDeliveryError ⟨true, true, false, 10, 1000, true, true⟩
              demoStringify true [1, 2] ⟨[9], some ['0', '\n'], 0, true⟩).remoteFailCount =
          0 + 1) :=
  ⟨rfl, by decide,
    C3_durable_failure_append ⟨true, true, false, 10, 1000, true, true⟩
      demoStringify [1, 2] ⟨[9], some ['0', '\n'], 0, true⟩ rfl rfl (by decide)⟩

/-- C5, counterexample: with gzip enabled and a failing compression of
the drained batch `[0]`, the flush issues no request at all and instead
lets the exception propagate (`zlib.gzipSync` has no try/catch),
refuting the claimed fallback to uncompressed transmission. -/
theorem C5_counterexample :
    (flushRemoteSync ⟨true, true, true, 10, 1000, false, false⟩
        false (⟨[0], none, 0, true⟩ : LoggerState ℕ)).request = none ∧
      (flushRemoteSync ⟨true, true, true, 10, 1000, false, false⟩
          false (⟨[0], none, 0, true⟩ : LoggerState ℕ)).threw = true := by
  decide

/-- C5, amended: with gzip enabled, a failing compression makes the
flush attempt throw with no request issued — the drained batch is lost
from the buffer, not transmitted uncompressed (callers such as
`_enqueueRemote` swallow the exception); when compression succeeds the
issued request carries the `Content-Encoding: gzip` marker. -/
theorem C5_gzip_behavior {Rec : Type} (cfg : Config) (gzipOk : Bool)
    (st : LoggerState Rec) (hurl : cfg.hasUrl = true)
    (hok : cfg.urlValid = true) (hgz : cfg.remoteGzip = true)
    (hne : st.remoteBuffer ≠ []) :
    (gzipOk = false → flushRemoteSync cfg gzipOk st =
        ⟨⟨[], st.queueFile, st.remoteFailCount, st.timerArmed⟩, none, true⟩) ∧
      (gzipOk = true → flushRemoteSync cfg gzipOk st =
        ⟨⟨[], st.queueFile, st.remoteFailCount, st.timerArmed⟩,
          some ⟨st.remoteBuffer, cfg.remoteGzip⟩, false⟩) := by
  have hemp : st.remoteBuffer.isEmpty = false := by
    simpa [List.isEmpty_iff] using hne
  constructor
  · intro hg
    simp [flushRemoteSync, hurl, hok, hgz, hemp, hg]
  · intro hg
    simp [flushRemoteSync, hurl, hok, hgz, hemp, hg]

/-- C5, witness: the amended statement at a concrete gzip-enabled
configuration with the one-record buffer `[0]`. -/
theorem C5_gzip_behavior_witness :
    (⟨true, true, true, 10, 1000, false, false⟩ : Config).remoteGzip = true ∧
      (true = true → flushRemoteSync
          ⟨true, true, true, 10, 1000, false, false⟩ true (⟨[0], none, 0, true⟩ : LoggerState ℕ) =
        ⟨⟨[], none, 0, true⟩, some ⟨[0], true⟩, false⟩) :=
  ⟨rfl,
    (C5_gzip_behavior ⟨true, true, true, 10, 1000, false, false⟩ true
      ⟨[0], none, 0, true⟩ rfl rfl rfl (by decide)).2⟩

/-- C6: draining a well-formed queue file whose line count exceeds
`batchSize` removes exactly the first `batchSize` lines, prepends them
parsed, in order, to the buffer, and rewrites the file to exactly the
byte suffix of the original content after the removed prefix (final
newline included); an absent or empty file yields no records, no error
and no file modification. -/
theorem C6_drain_wellformed {Rec : Type} (cfg : Config)
    (parse : List Char → Option Rec) (st : LoggerState Rec)
    (lines : List (List Char)) (batch : List Rec)
    (hrel : cfg.remoteReliable = true) (hqp : cfg.hasQueuePath = true)
    (hfile : st.queueFile = some (joinNl lines ++ ['\n']))
    (hwf : WfLines lines) (hlen : cfg.batchSize < lines.length)
    (hparse : parseAll parse (lines.take cfg.batchSize) = some batch) :
    drainStep cfg parse true st =
        ({ st with remoteBuffer := batch ++ st.remoteBuffer,
                   queueFile := some (joinNl (lines.drop cfg.batchSize) ++ ['\n']) },
          true, false) ∧
      joinNl lines ++ ['\n'] =
        ((lines.take cfg.batchSize).map (fun l => l ++ ['\n'])).flatten ++
          (joinNl (lines.drop cfg.batchSize) ++ ['\n']) ∧
      (∀ st2 : LoggerState Rec, st2.queueFile = none ∨ st2.queueFile = some [] →
        drainStep cfg parse true st2 = (st2, false, false)) := by
  obtain ⟨hne, hwfl⟩ := hwf
  have hnl : ∀ l ∈ lines, '\n' ∉ l := fun l hl => (hwfl l hl).2.1
  have hsplit : splitNl (jsTrim (joinNl lines ++ ['\n'])) = lines := by
    rw [jsTrim_wellformed lines ⟨hne, hwfl⟩, splitNl_joinNl lines hne hnl]
  have hmin : min lines.length cfg.batchSize = cfg.batchSize :=
    min_eq_right (le_of_lt hlen)
  have hrem : (lines.drop cfg.batchSize).isEmpty = false := by
    have hdrop : lines.drop cfg.batchSize ≠ [] := by
      intro h
      have hzero : lines.length - cfg.batchSize = 0 := by
        rw [← List.length_drop, h]
        rfl
      omega
    simpa [List.isEmpty_iff] using hdrop
  refine ⟨?_, joinNl_take_drop cfg.batchSize lines hlen, ?_⟩
  · obtain ⟨buf, qf, fc, tm⟩ := st
    simp only at hfile
    subst hfile
    unfold drainStep
    rw [if_neg (by simp [hrel, hqp])]
    simp only [hsplit, hmin, hparse, hrem]
    simp
  · intro st2 h2
    obtain ⟨buf2, qf2, fc2, tm2⟩ := st2
    rcases h2 with h2 | h2 <;> simp only at h2 <;> subst h2 <;>
      simp [drainStep, hrel, hqp]

/-- C6, witness: draining the three-line file `1\n2\n3\n` with
`batchSize = 2` yields the records `[1, 2]` prepended to the buffer and
leaves exactly `3\n` on disk. -/
theorem C6_drain_wellformed_witness :
    WfLines demoLines ∧ (2 : ℕ) < demoLines.length ∧
      parseAll demoParse (demoLines.take 2) = some [1, 2] ∧
      drainStep ⟨true, true, false, 2, 1000, true, true⟩ demoParse true
          (⟨[], some (joinNl demoLines ++ ['\n']), 0, true⟩ : LoggerState ℕ) =
        (⟨[1, 2], some (joinNl (demoLines.drop 2) ++ ['\n']), 0, true⟩, true, false) :=
  ⟨by decide, by decide, by decide,
    (C6_drain_wellformed ⟨true, true, false, 2, 1000, true, true⟩ demoParse
      ⟨[], some (joinNl demoLines ++ ['\n']), 0, true⟩ demoLines [1, 2]
      rfl rfl rfl (by decide) (by decide) (by decide)).1⟩

/-- C7: if some line within the drained prefix fails to parse, the
drain aborts as a whole: the body propagates an exception (swallowed by
the enclosing catch of `_flushPersistentQueue`), no records reach the
buffer, and both the queue file and the state are left untouched. -/
theorem C7_drain_parse_failure {Rec : Type} (cfg : Config)
    (parse : List Char → Option Rec) (gzipOk writeOk : Bool)
    (st : LoggerState Rec) (content : List Char)
    (hrel : cfg.remoteReliable = true) (hqp : cfg.hasQueuePath = true)
    (hfile : st.queueFile = some content) (hcne : content ≠ [])
    (hbad : ∃ l ∈ (splitNl (jsTrim content)).take
        (min (splitNl (jsTrim content)).length cfg.batchSize), parse l = none) :
    drainStep cfg parse writeOk st = (st, false, true) ∧
      flushPersistentQueue cfg parse gzipOk writeOk st = st := by
  obtain ⟨l, hmem, hl⟩ := hbad
  have hpnone : parseAll parse ((splitNl (jsTrim content)).take
      (min (splitNl (jsTrim content)).length cfg.batchSize)) = none :=
    parseAll_eq_none_of_mem parse _ l hmem hl
  have hemp : content.isEmpty = false := by
    simpa [List.isEmpty_iff] using hcne
  have hmain : drainStep cfg parse writeOk st = (st, false, true) := by
    obtain ⟨buf, qf, fc, tm⟩ := st
    simp only at hfile
    subst hfile
    unfold drainStep
    rw [if_neg (by simp [hrel, hqp])]
    simp only [hemp, hpnone]
    simp
  refine ⟨hmain, ?_⟩
  unfold flushPersistentQueue
  rw [hmain]
  simp

/-- C7, witness: the file `1\nx\n` with `batchSize = 2`, where the
second drained line `x` does not parse: the drain throws and the whole
operation leaves the state unchanged. -/
theorem C7_drain_parse_failure_witness :
    (joinNl [['1'], ['x']] ++ ['\n'] : List Char) ≠ [] ∧
      (∃ l ∈ (splitNl (jsTrim (joinNl [['1'], ['x']] ++ ['\n']))).take
          (min (splitNl (jsTrim (joinNl [['1'], ['x']] ++ ['\n']))).length 2),
        demoParse l = none) ∧
      flushPersistentQueue ⟨true, true, false, 2, 1000, true, true⟩
          demoParse true true (⟨[9], some (joinNl [['1'], ['x']] ++ ['\n']), 0, true⟩ : LoggerState ℕ) =
        ⟨[9], some (joinNl [['1'], ['x']] ++ ['\n']), 0, true⟩ :=
  ⟨by decide, ⟨['x'], by decide, by decide⟩,
    (C7_drain_parse_failure ⟨true, true, false, 2, 1000, true, true⟩ demoParse
      true true ⟨[9], some (joinNl [['1'], ['x']] ++ ['\n']), 0, true⟩
      (joinNl [['1'], ['x']] ++ ['\n']) rfl rfl rfl (by decide)
      ⟨['x'], by decide, by decide⟩).2⟩

/-- C9: the drain prepends the parsed prefix to the buffer before
rewriting the queue file; when the rewrite fails the exception is
swallowed, no immediate flush is triggered, and the drained records are
now both in the buffer and still in the untouched queue file — later
delivery can duplicate them, but none are lost. -/
theorem C9_rewrite_failure_duplicates {Rec : Type} (cfg : Config)
    (parse : List Char → Option Rec) (gzipOk : Bool) (st : LoggerState Rec)
    (content : List Char) (batch : List Rec)
    (hrel : cfg.remoteReliable = true) (hqp : cfg.hasQueuePath = true)
    (hfile : st.queueFile = some content) (hcne : content ≠ [])
    (hparse : parseAll parse ((splitNl (jsTrim content)).take
        (min (splitNl (jsTrim content)).length cfg.batchSize)) = some batch) :
    drainStep cfg parse false st =
        ({ st with remoteBuffer := batch ++ st.remoteBuffer }, false, true) ∧
      flushPersistentQueue cfg parse gzipOk false st =
        { st with remoteBuffer := batch ++ st.remoteBuffer } ∧
      (flushPersistentQueue cfg parse gzipOk false st).queueFile = some content := by
  have hemp : content.isEmpty = false := by
    simpa [List.isEmpty_iff] using hcne
  have hmain : drainStep cfg parse false st =
      ({ st with remoteBuffer := batch ++ st.remoteBuffer }, false, true) := by
    obtain ⟨buf, qf, fc, tm⟩ := st
    simp only at hfile
    subst hfile
    unfold drainStep
    rw [if_neg (by simp [hrel, hqp])]
    simp only [hemp, hparse]
    simp
  have hfpq : flushPersistentQueue cfg parse gzipOk false st =
      { st with remoteBuffer := batch ++ st.remoteBuffer } := by
    unfold flushPersistentQueue
    rw [hmain]
    simp
  exact ⟨hmain, hfpq, by rw [hfpq, hfile]⟩

/-- C9, witness: with `batchSize = 2` over `1\n2\n3\n` and a failing
rewrite, the records `[1, 2]` are prepended to the buffer while the
file still holds all three lines. -/
theorem C9_rewrite_failure_duplicates_witness :
    parseAll demoParse ((splitNl (jsTrim (joinNl demoLines ++ ['\n']))).take
        (min (splitNl (jsTrim (joinNl demoLines ++ ['\n']))).length 2)) =
      some [1, 2] ∧
      flushPersistentQueue ⟨true, true, false, 2, 1000, true, true⟩
          demoParse false false (⟨[9], some (joinNl demoLines ++ ['\n']), 0, true⟩ : LoggerState ℕ) =
        ⟨[1, 2, 9], some (joinNl demoLines ++ ['\n']), 0, true⟩ :=
  ⟨by decide,
    (C9_rewrite_failure_duplicates ⟨true, true, false, 2, 1000, true, true⟩
      demoParse false ⟨[9], some (joinNl demoLines ++ ['\n']), 0, true⟩
      (joinNl demoLines ++ ['\n']) [1, 2] rfl rfl rfl (by decide)
      (by decide)).2.1⟩

/-- C8: the fail count starts at zero at construction, never decreases
under any operation — including a successful delivery, whose response
handler changes nothing — is incremented by exactly one by the delivery
failure callback, and is monotone along every operation sequence. -/
theorem C8_failCount_monotone :
    (∀ (Rec : Type) (cfg : Config) (disk : Option (List Char)),
        (initState Rec cfg disk).remoteFailCount = 0) ∧
      (∀ (Rec : Type) (cfg : Config) (stringify : Rec → List Char)
          (parse : List Char → Option Rec) (op : Op Rec) (st : LoggerState Rec),
        st.remoteFailCount ≤ (step cfg stringify parse op st).remoteFailCount) ∧
      (∀ (Rec : Type) (cfg : Config) (stringify : Rec → List Char)
          (parse : List Char → Option Rec) (batch : List Rec) (appendOk : Bool)
          (st : LoggerState Rec),
        (step cfg stringify parse (Op.deliveryError batch appendOk) st).remoteFailCount =
          st.remoteFailCount + 1) ∧
      (∀ (Rec : Type) (cfg : Config) (stringify : Rec → List Char)
          (parse : List Char → Option Rec) (ops : List (Op Rec))
          (st : LoggerState Rec),
        st.remoteFailCount ≤
          (ops.foldl (fun s op => step cfg stringify parse op s) st).remoteFailCount) := by
  have hmono : ∀ (Rec : Type) (cfg : Config) (stringify : Rec → List Char)
      (parse : List Char → Option Rec) (op : Op Rec) (st : LoggerState Rec),
      st.remoteFailCount ≤ (step cfg stringify parse op st).remoteFailCount := by
    intro Rec cfg stringify parse op st
    cases op with
    | enqueue item gzipOk =>
      rw [step, enqueueRemote_failCount]
    | timerFire gzipOk =>
      rw [step]
      dsimp only
      split
      · rw [flushRemoteSync_failCount]
      · exact le_refl _
    | explicitFlush gzipOk =>
      rw [step]
      dsimp only
      split
      · exact le_refl _
      · rw [flushRemoteSync_failCount]
    | deliverySuccess => exact le_refl _
    | deliveryError batch appendOk =>
      rw [step, onDeliveryError_failCount]
      exact Nat.le_succ _
    | drainQueue gzipOk writeOk =>
      rw [step, flushPersistentQueue_failCount]
    | closeLogger gzipOk =>
      rw [step]
      dsimp only
      split
      · exact le_refl _
      · rw [flushRemoteSync_failCount]
    | backoffElapsed => exact le_refl _
  refine ⟨fun Rec cfg disk => rfl, hmono,
    fun Rec cfg stringify parse batch appendOk st =>
      onDeliveryError_failCount cfg stringify appendOk batch st, ?_⟩
  intro Rec cfg stringify parse ops
  induction ops with
  | nil => exact fun st => le_refl _
  | cons op t ih =>
    intro st
    exact le_trans (hmono Rec cfg stringify parse op st)
      (ih (step cfg stringify parse op st))

/-- C10: the size-triggered flush in `_enqueueRemote` consults no timer
state: when the enqueue brings the buffer to at least `batchSize`, an
immediate delivery attempt is issued even with the recurring timer
disarmed during a pending backoff delay, draining the buffer. -/
theorem C10_threshold_flush_ignores_timer {Rec : Type} (cfg : Config)
    (gzipOk : Bool) (item : Rec) (st : LoggerState Rec)
    (_htimer : st.timerArmed = false) (hurl : cfg.hasUrl = true)
    (hok : cfg.urlValid = true) (hgz : cfg.remoteGzip = true → gzipOk = true)
    (hlen : cfg.batchSize ≤ st.remoteBuffer.length + 1) :
    (enqueueRemote cfg gzipOk item st).request =
        some ⟨st.remoteBuffer ++ [item], cfg.remoteGzip⟩ ∧
      (enqueueRemote cfg gzipOk item st).state.remoteBuffer = [] := by
  have hlen' : cfg.batchSize ≤ (st.remoteBuffer ++ [item]).length := by
    rw [List.length_append]
    simpa using hlen
  have hne : (st.remoteBuffer ++ [item]).isEmpty = false := by
    cases st.remoteBuffer with
    | nil => rfl
    | cons a t => rfl
  have hngz : ¬ (cfg.remoteGzip = true ∧ gzipOk = false) := by
    rintro ⟨h1, h2⟩
    rw [hgz h1] at h2
    cases h2
  unfold enqueueRemote
  dsimp only
  rw [if_pos hlen']
  unfold flushRemoteSync
  simp [hurl, hok, hne, hngz]

/-- C10, witness: with `batchSize = 2`, timer disarmed, buffer `[5]`,
enqueueing `7` issues an immediate request carrying `[5, 7]`. -/
theorem C10_threshold_flush_ignores_timer_witness :
    (⟨[5], none, 3, false⟩ : LoggerState ℕ).timerArmed = false ∧
      (2 : ℕ) ≤ ([5] : List ℕ).length + 1 ∧
      (enqueueRemote ⟨true, true, false, 2, 1000, false, false⟩ true 7
          (⟨[5], none, 3, false⟩ : LoggerState ℕ)).request = some ⟨[5] ++ [7], false⟩ :=
  ⟨rfl, by decide,
    (C10_threshold_flush_ignores_timer ⟨true, true, false, 2, 1000, false, false⟩
      true 7 ⟨[5], none, 3, false⟩ rfl rfl rfl (fun h => rfl) (by decide)).1⟩

end YureiLog
